import Mathlib

/-!
Verification of the scalar gradient-descent tracer and the logistic
function of `src/4-week4/1-logistic_regression.ipynb`.

The notebook defines (cell 6):

  def gradient_descent_update(start, learning_rate, gradient_func, steps=10):
      x = start
      path = [start]
      for _ in range(steps):
          grad = gradient_func(x)
          x -= learning_rate * grad
          path.append(x)
      return np.array(path)

  def shallow_gradient(x): return 0.1 * x
  def steep_gradient(x): return 2 * x

and a second tracer with the gradient hard-coded to `2 * x` (cell 8),
here named `gradient_descent_update2`.  Cell 2 defines

  def logistic_function(x, alpha, beta):
      return 1 / (1 + np.exp(-(alpha + beta*x)))

The tracer is embedded polymorphically over a commutative ring so that it
is executable on `ℚ`; the claims, stated over the reals, instantiate it
at `ℝ`.
-/

/-- The body of the tracer's `for` loop: `n` remaining iterations, current
parameter `x`, accumulated `path`; each iteration computes
`grad = gradient_func(x)`, updates `x -= learning_rate * grad` and appends
the new `x` to the path. -/
def gdGo {α : Type} [Ring α] (learning_rate : α) (gradient_func : α → α) :
    ℕ → α → List α → List α
  | 0, _, path => path
  | Nat.succ n, x, path =>
      gdGo learning_rate gradient_func n (x - learning_rate * gradient_func x)
        (path ++ [x - learning_rate * gradient_func x])

/-- `gradient_descent_update(start, learning_rate, gradient_func, steps=10)`
from cell 6 of the notebook: runs `steps` loop iterations starting from the
one-element path `[start]`. -/
def gradient_descent_update {α : Type} [Ring α] (start learning_rate : α)
    (gradient_func : α → α) (steps : ℕ := 10) : List α :=
  gdGo learning_rate gradient_func steps start [start]

/-- `shallow_gradient(x) = 0.1 * x` from cell 6. -/
noncomputable def shallow_gradient (x : ℝ) : ℝ := 0.1 * x

/-- `steep_gradient(x) = 2 * x` from cell 6. -/
noncomputable def steep_gradient (x : ℝ) : ℝ := 2 * x

/-- The loop body of the second tracer (cell 8), whose gradient is
hard-coded to `grad = 2 * x`. -/
def gdGo2 {α : Type} [Ring α] (learning_rate : α) : ℕ → α → List α → List α
  | 0, _, path => path
  | Nat.succ n, x, path =>
      gdGo2 learning_rate n (x - learning_rate * (2 * x))
        (path ++ [x - learning_rate * (2 * x)])

/-- The second `gradient_descent_update(start, learning_rate, steps=10)`
definition (cell 8), with the gradient hard-coded to the derivative of
`x^2`. -/
def gradient_descent_update2 {α : Type} [Ring α] (start learning_rate : α)
    (steps : ℕ := 10) : List α :=
  gdGo2 learning_rate steps start [start]

/-- `logistic_function(x, alpha, beta) = 1 / (1 + exp(-(alpha + beta*x)))`
from cell 2. -/
noncomputable def logistic_function (x alpha beta : ℝ) : ℝ :=
  1 / (1 + Real.exp (-(alpha + beta * x)))

/-- One gradient-descent update: the value the loop assigns to `x`. -/
def gdStep {α : Type} [Ring α] (learning_rate : α) (gradient_func : α → α)
    (x : α) : α :=
  x - learning_rate * gradient_func x

theorem gdGo_eq {α : Type} [Ring α] (lr : α) (g : α → α) (n : ℕ) (x : α)
    (path : List α) :
    gdGo lr g n x path
      = path ++ List.iterate (gdStep lr g) (gdStep lr g x) n := by
  induction n generalizing x path with
  | zero => simp [gdGo]
  | succ n ih =>
      rw [gdGo, ih]
      simp [gdStep, List.iterate]

/-- The tracer's output is the list of iterates of the update map. -/
theorem gradient_descent_update_eq {α : Type} [Ring α] (start lr : α)
    (g : α → α) (steps : ℕ) :
    gradient_descent_update start lr g steps
      = List.iterate (gdStep lr g) start (steps + 1) := by
  rw [gradient_descent_update, gdGo_eq, List.iterate]
  simp

theorem gdu_length {α : Type} [Ring α] (start lr : α) (g : α → α)
    (steps : ℕ) :
    (gradient_descent_update start lr g steps).length = steps + 1 := by
  rw [gradient_descent_update_eq]
  simp

theorem gdu_get {α : Type} [Ring α] (start lr : α) (g : α → α)
    (steps i : ℕ)
    (h : i < (gradient_descent_update start lr g steps).length) :
    (gradient_descent_update start lr g steps).get ⟨i, h⟩
      = (gdStep lr g)^[i] start := by
  simp only [List.get_eq_getElem, gradient_descent_update_eq,
    List.getElem_iterate]

theorem gdStep_linear (k r x : ℝ) :
    gdStep r (fun y => k * y) x = (1 - r * k) * x := by
  simp only [gdStep]
  ring

theorem iterate_gdStep_linear (k r x0 : ℝ) (i : ℕ) :
    (gdStep r (fun x => k * x))^[i] x0 = x0 * (1 - r * k) ^ i := by
  induction i with
  | zero => simp
  | succ i ih =>
      rw [Function.iterate_succ_apply', ih, gdStep_linear]
      ring

theorem gdGo2_eq_gdGo {α : Type} [Ring α] (lr : α) (n : ℕ) (x : α)
    (path : List α) :
    gdGo2 lr n x path = gdGo lr (fun y => 2 * y) n x path := by
  induction n generalizing x path with
  | zero => rfl
  | succ n ih => rw [gdGo2, gdGo, ih]

theorem gdu2_eq {α : Type} [Ring α] (start lr : α) (steps : ℕ) :
    gradient_descent_update2 start lr steps
      = gradient_descent_update start lr (fun y => 2 * y) steps := by
  rw [gradient_descent_update2, gradient_descent_update, gdGo2_eq_gdGo]

/-- C1: for every starting scalar, learning rate, gradient function and
non-negative step count, the tracer returns a sequence of length
`steps + 1` whose element 0 is the start and whose element `i` (for
`1 ≤ i ≤ steps`) equals element `i-1` minus `learning_rate` times the
gradient at element `i-1`. -/
theorem C1_tracer_output_shape (start lr : ℝ) (g : ℝ → ℝ) (steps : ℕ) :
    (gradient_descent_update start lr g steps).length = steps + 1 ∧
    (∀ h0 : 0 < (gradient_descent_update start lr g steps).length,
      (gradient_descent_update start lr g steps).get ⟨0, h0⟩ = start) ∧
    (∀ i : ℕ, 1 ≤ i → i ≤ steps →
      ∀ hi : i < (gradient_descent_update start lr g steps).length,
      ∀ hi2 : i - 1 < (gradient_descent_update start lr g steps).length,
      (gradient_descent_update start lr g steps).get ⟨i, hi⟩
        = (gradient_descent_update start lr g steps).get ⟨i - 1, hi2⟩
          - lr * g ((gradient_descent_update start lr g steps).get
              ⟨i - 1, hi2⟩)) := by
  refine ⟨gdu_length start lr g steps, ?_, ?_⟩
  · intro h0
    rw [gdu_get]
    exact Function.iterate_zero_apply _ start
  · intro i h1 _h2 hi hi2
    rw [gdu_get, gdu_get]
    obtain ⟨j, rfl⟩ : ∃ j, i = j + 1 := ⟨i - 1, by omega⟩
    simp only [Nat.add_sub_cancel, Function.iterate_succ_apply', gdStep]

theorem C1_tracer_output_shape_witness :
    (gradient_descent_update (3 : ℝ) 2 id 1).get
        ⟨1, by simp [gdu_length]⟩
      = (gradient_descent_update (3 : ℝ) 2 id 1).get
          ⟨1 - 1, by simp [gdu_length]⟩
        - 2 * id ((gradient_descent_update (3 : ℝ) 2 id 1).get
            ⟨1 - 1, by simp [gdu_length]⟩) :=
  (C1_tracer_output_shape 3 2 id 1).2.2 1 (by norm_num) (by norm_num)
    (by simp [gdu_length]) (by simp [gdu_length])

/-- C2: with the linear gradient `g(x) = k*x`, learning rate `r` and
start `x0`, element `i` of the tracer's output equals
`x0 * (1 - r*k)^i` for every `i ≤ steps`. -/
theorem C2_linear_closed_form (k r x0 : ℝ) (steps i : ℕ) (hi : i ≤ steps)
    (h : i < (gradient_descent_update x0 r (fun x => k * x) steps).length) :
    (gradient_descent_update x0 r (fun x => k * x) steps).get ⟨i, h⟩
      = x0 * (1 - r * k) ^ i := by
  rw [gdu_get]
  exact iterate_gdStep_linear k r x0 i

theorem C2_linear_closed_form_witness :
    (gradient_descent_update (2 : ℝ) 1 (fun x => 1 * x) 2).get
        ⟨1, by simp [gdu_length]⟩ = 2 * (1 - 1 * 1) ^ 1 :=
  C2_linear_closed_form 1 1 2 2 1 (by norm_num) (by simp [gdu_length])

/-- C6: with `steps = 0` the tracer's output is exactly `[x0]`. -/
theorem C6_zero_steps (x0 lr : ℝ) (g : ℝ → ℝ) :
    gradient_descent_update x0 lr g 0 = [x0] :=
  rfl

/-- C7: with learning rate `0`, every element of the tracer's output
equals the start `x0`. -/
theorem C7_zero_learning_rate (x0 : ℝ) (g : ℝ → ℝ) (steps i : ℕ)
    (h : i < (gradient_descent_update x0 0 g steps).length) :
    (gradient_descent_update x0 0 g steps).get ⟨i, h⟩ = x0 := by
  rw [gdu_get]
  exact Function.iterate_fixed (by simp [gdStep]) i

theorem C7_zero_learning_rate_witness :
    (gradient_descent_update (5 : ℝ) 0 id 3).get
        ⟨2, by simp [gdu_length]⟩ = 5 :=
  C7_zero_learning_rate 5 id 3 2 (by simp [gdu_length])

/-- C8: the tracer is deterministic: two runs on equal inputs produce
equal output sequences. -/
theorem C8_deterministic (s1 s2 lr1 lr2 : ℝ) (g1 g2 : ℝ → ℝ) (n1 n2 : ℕ)
    (hs : s1 = s2) (hlr : lr1 = lr2) (hg : g1 = g2) (hn : n1 = n2) :
    gradient_descent_update s1 lr1 g1 n1
      = gradient_descent_update s2 lr2 g2 n2 := by
  rw [hs, hlr, hg, hn]

theorem C8_deterministic_witness :
    gradient_descent_update (1 : ℝ) 1 id 2
      = gradient_descent_update (1 : ℝ) 1 id 2 :=
  C8_deterministic 1 1 1 1 id id 2 2 rfl rfl rfl rfl

/-- C9: `logistic_function(x, alpha, beta)` lies strictly between 0 and 1
for every real `x`, `alpha`, `beta`. -/
theorem C9_logistic_range (x alpha beta : ℝ) :
    0 < logistic_function x alpha beta ∧ logistic_function x alpha beta < 1 := by
  have he : 0 < Real.exp (-(alpha + beta * x)) := Real.exp_pos _
  constructor
  · rw [logistic_function]
    positivity
  · rw [logistic_function, div_lt_one (by linarith)]
    linarith

theorem gdu2_length (start lr : ℝ) (steps : ℕ) :
    (gradient_descent_update2 start lr steps).length = steps + 1 := by
  rw [gdu2_eq, gdu_length]

theorem gdu2_get (start lr : ℝ) (steps i : ℕ)
    (h : i < (gradient_descent_update2 start lr steps).length) :
    (gradient_descent_update2 start lr steps).get ⟨i, h⟩
      = start * (1 - lr * 2) ^ i := by
  simp only [List.get_eq_getElem, gdu2_eq, gradient_descent_update_eq,
    List.getElem_iterate]
  exact iterate_gdStep_linear 2 lr start i

/-- C3: for the linear gradient `g(x) = k*x` with `0 < r*k < 2`, the
absolute values along the tracer's output are non-increasing, and for
every `ε > 0` there is a step count beyond which the final element's
absolute value is below `ε`. -/
theorem C3_linear_abs_convergence (x0 k r : ℝ) (hpos : 0 < r * k)
    (hlt : r * k < 2) :
    (∀ steps i : ℕ,
      ∀ h1 : i + 1
        < (gradient_descent_update x0 r (fun x => k * x) steps).length,
      ∀ h2 : i < (gradient_descent_update x0 r (fun x => k * x) steps).length,
      |(gradient_descent_update x0 r (fun x => k * x) steps).get ⟨i + 1, h1⟩|
        ≤ |(gradient_descent_update x0 r (fun x => k * x) steps).get
            ⟨i, h2⟩|) ∧
    (∀ ε : ℝ, 0 < ε → ∃ N : ℕ, ∀ steps : ℕ, N ≤ steps →
      ∀ hs : steps
        < (gradient_descent_update x0 r (fun x => k * x) steps).length,
      |(gradient_descent_update x0 r (fun x => k * x) steps).get
          ⟨steps, hs⟩| < ε) := by
  have ht0 : 0 ≤ |1 - r * k| := abs_nonneg _
  have ht1 : |1 - r * k| ≤ 1 := by
    rw [abs_le]
    constructor <;> linarith
  constructor
  · intro steps i h1 h2
    rw [gdu_get, gdu_get, iterate_gdStep_linear, iterate_gdStep_linear,
      abs_mul, abs_mul, abs_pow, abs_pow]
    exact mul_le_mul_of_nonneg_left
      (pow_le_pow_of_le_one ht0 ht1 (Nat.le_succ i)) (abs_nonneg x0)
  · intro ε hε
    have hx1 : (0 : ℝ) < |x0| + 1 := by positivity
    have htlt : |1 - r * k| < 1 := by
      rw [abs_lt]
      constructor <;> linarith
    obtain ⟨N, hN⟩ := exists_pow_lt_of_lt_one (div_pos hε hx1) htlt
    refine ⟨N, fun steps hsteps hs => ?_⟩
    rw [gdu_get, iterate_gdStep_linear, abs_mul, abs_pow]
    have hb : |1 - r * k| ^ steps ≤ |1 - r * k| ^ N :=
      pow_le_pow_of_le_one ht0 ht1 hsteps
    have hc : |1 - r * k| ^ N * (|x0| + 1) < ε := (lt_div_iff₀ hx1).mp hN
    have hd : |x0| * |1 - r * k| ^ steps ≤ |1 - r * k| ^ N * (|x0| + 1) := by
      rw [mul_comm (|1 - r * k| ^ N) (|x0| + 1)]
      exact mul_le_mul (by linarith [abs_nonneg x0]) hb (by positivity)
        (by positivity)
    linarith

theorem C3_linear_abs_convergence_witness :
    |(gradient_descent_update (1 : ℝ) 1 (fun x => 1 * x) 1).get
        ⟨0 + 1, by simp [gdu_length]⟩|
      ≤ |(gradient_descent_update (1 : ℝ) 1 (fun x => 1 * x) 1).get
          ⟨0, by simp [gdu_length]⟩| :=
  (C3_linear_abs_convergence 1 1 1 (by norm_num) (by norm_num)).1 1 0
    (by simp [gdu_length]) (by simp [gdu_length])

/-- C4: the cell-8 tracer with start `-8`, learning rate `0.95` and
`steps = 10` (gradient hard-coded to `2*x`) produces a sequence with
strictly alternating signs, strictly decreasing absolute values, and raw
values that are not monotonically decreasing. -/
theorem C4_oscillating_shrinking :
    (∀ i : ℕ, i < 10 →
      ∀ h1 : i + 1 < (gradient_descent_update2 (-8 : ℝ) 0.95 10).length,
      ∀ h2 : i < (gradient_descent_update2 (-8 : ℝ) 0.95 10).length,
      (gradient_descent_update2 (-8 : ℝ) 0.95 10).get ⟨i, h2⟩
        * (gradient_descent_update2 (-8 : ℝ) 0.95 10).get ⟨i + 1, h1⟩
        < 0) ∧
    (∀ i : ℕ, i < 10 →
      ∀ h1 : i + 1 < (gradient_descent_update2 (-8 : ℝ) 0.95 10).length,
      ∀ h2 : i < (gradient_descent_update2 (-8 : ℝ) 0.95 10).length,
      |(gradient_descent_update2 (-8 : ℝ) 0.95 10).get ⟨i + 1, h1⟩|
        < |(gradient_descent_update2 (-8 : ℝ) 0.95 10).get ⟨i, h2⟩|) ∧
    ¬ (∀ i : ℕ, i < 10 →
      ∀ h1 : i + 1 < (gradient_descent_update2 (-8 : ℝ) 0.95 10).length,
      ∀ h2 : i < (gradient_descent_update2 (-8 : ℝ) 0.95 10).length,
      (gradient_descent_update2 (-8 : ℝ) 0.95 10).get ⟨i + 1, h1⟩
        ≤ (gradient_descent_update2 (-8 : ℝ) 0.95 10).get ⟨i, h2⟩) := by
  refine ⟨?_, ?_, ?_⟩
  · intro i _hi h1 h2
    rw [gdu2_get, gdu2_get, pow_succ]
    have hne : ((1 : ℝ) - 0.95 * 2) ^ i ≠ 0 := pow_ne_zero i (by norm_num)
    nlinarith [mul_self_pos.mpr hne]
  · intro i _hi h1 h2
    rw [gdu2_get, gdu2_get, abs_mul, abs_mul, abs_pow, abs_pow,
      abs_of_neg (by norm_num : (-8 : ℝ) < 0),
      abs_of_neg (by norm_num : (1 : ℝ) - 0.95 * 2 < 0), pow_succ]
    have hp : (0 : ℝ) < (-(1 - 0.95 * 2)) ^ i := pow_pos (by norm_num) i
    nlinarith [hp]
  · intro hmono
    have h := hmono 0 (by norm_num) (by simp [gdu2_length])
      (by simp [gdu2_length])
    rw [gdu2_get, gdu2_get] at h
    norm_num at h

/-- C5: the tracer with start `8`, learning rate `0.1`, gradient
`shallow_gradient` and `steps = 10` ends at exactly `8 * 0.99^10`, which
is approximately `7.24` (it lies between `7.23` and `7.24`). -/
theorem C5_shallow_final :
    (gradient_descent_update (8 : ℝ) 0.1 shallow_gradient 10).get
        ⟨10, by simp [gdu_length]⟩ = 8 * 0.99 ^ 10 ∧
    (7.23 : ℝ) < 8 * 0.99 ^ 10 ∧ (8 : ℝ) * 0.99 ^ 10 < 7.24 := by
  refine ⟨?_, by norm_num, by norm_num⟩
  have hsh : shallow_gradient = fun x => (0.1 : ℝ) * x := rfl
  rw [hsh, gdu_get, iterate_gdStep_linear]
  norm_num

/-- C10: the cell-8 tracer (gradient hard-coded to `2*x`) returns, for
every start, learning rate and step count, exactly the sequence the
general tracer returns on `steep_gradient`. -/
theorem C10_hardcoded_equiv (start lr : ℝ) (steps : ℕ) :
    gradient_descent_update2 start lr steps
      = gradient_descent_update start lr steep_gradient steps := by
  rw [gdu2_eq]
  rfl
